import Mathlib

/-!
Shallow embedding of the BioSTEAM/Thermosteam phase-equilibrium solver family
and the flowsheet recycle-convergence engine, as described by the tutorial
notebooks (`docs/tutorial/Getting_started.ipynb`).  The repository ships only
the tutorial; the solver implementations (`thermosteam/equilibrium/vle.py`,
`bubble_point.py`, `dew_point.py`, `lle.py`, BioSTEAM's `System`) are not under
`src/`, so they are modelled here from the specification.  The one place the
notebook shows real implementation code is the `InfeasibleRegion` traceback,
which displays `VLE._lever_rule`, `VLE.set_Px` and the dispatch in
`VLE.__call__`; those definitions follow that code directly.  In particular
the composition-driven routes write only the solved temperature into the
shared thermal condition and leave the stored pressure at its prior value, as
that code and the executed notebook outputs (cell 14) show.

Numbers are rationals: the solvers are exact-arithmetic models of the
floating-point originals.  The external thermodynamic Property Provider (out
of scope for the spec's core) is instantiated as an ideal-Raoult provider with
linear saturation curves `Psat i T = a_i * T` and linear enthalpy/entropy
models, which keeps every solver executable and the bubble/dew inversions in
closed form.
-/

namespace BioSteam

/-- Errors of the solver taxonomy (spec §7). -/
inductive EqError where
  | solverDidNotConverge
  | infeasibleRegion
  | degenerateInput
  deriving DecidableEq, Repr

/-- ThermalCondition: a (temperature, pressure) pair shared between a stream's
state and an equilibrium solver's working state (spec §3). -/
structure ThermalCondition where
  T : ℚ
  P : ℚ
  deriving DecidableEq, Repr

/-- A binary composition / molar-flow vector over the two-component system the
tutorial's VLE examples use (`x` / `y` specifications require `_N == 2`). -/
structure Comp2 where
  c0 : ℚ
  c1 : ℚ
  deriving DecidableEq, Repr

namespace Comp2

/-- Total of a binary composition vector. -/
def total (c : Comp2) : ℚ := c.c0 + c.c1

/-- Component-wise sum. -/
def add (a b : Comp2) : Comp2 := ⟨a.c0 + b.c0, a.c1 + b.c1⟩

/-- Component-wise difference. -/
def sub (a b : Comp2) : Comp2 := ⟨a.c0 - b.c0, a.c1 - b.c1⟩

/-- Scalar multiple. -/
def smul (q : ℚ) (a : Comp2) : Comp2 := ⟨q * a.c0, q * a.c1⟩

end Comp2

/-- Modelled from the spec: the external Property Provider (spec §2, §6) that
the core consumes, instantiated as an ideal-Raoult package: saturation
pressure of component `i` is `a_i * T`, vapor/liquid molar enthalpy is
`cg*T + hvap` / `cl*T`, entropy likewise linear, plus the iteration budget and
solver tolerances the nested root-finders use. -/
structure Provider where
  a0 : ℚ
  a1 : ℚ
  cg : ℚ
  cl : ℚ
  hvap : ℚ
  sg : ℚ
  sl : ℚ
  svap : ℚ
  fuel : Nat
  tolV : ℚ
  tolH : ℚ
  tolS : ℚ
  deriving DecidableEq, Repr

/-! ### Bubble and dew point solvers

Modelled from the spec (§4.1): `solve_bubble(z, T) → (P, y)`,
`solve_bubble(z, P) → (T, y)`, `solve_dew(z, T) → (P, x)`,
`solve_dew(z, P) → (T, x)`, incipient compositions normalized to sum to 1.
With the linear ideal provider the root of `Σ z_i K_i = 1` (bubble) and
`Σ z_i / K_i = 1` (dew) is in closed form. -/

/-- Bubble point at fixed composition and pressure: temperature and incipient
vapor composition (`BubblePoint.solve_Ty` in the source's naming). -/
def bubble_Ty (a0 a1 : ℚ) (x : Comp2) (P : ℚ) : ℚ × Comp2 :=
  let A := x.c0 * a0 + x.c1 * a1
  (P / A, ⟨x.c0 * a0 / A, x.c1 * a1 / A⟩)

/-- Bubble point at fixed composition and temperature: pressure and incipient
vapor composition (`BubblePoint.solve_Py`). -/
def bubble_Py (a0 a1 : ℚ) (z : Comp2) (T : ℚ) : ℚ × Comp2 :=
  let A := z.c0 * a0 + z.c1 * a1
  (T * A, ⟨z.c0 * a0 / A, z.c1 * a1 / A⟩)

/-- Dew point at fixed composition and pressure: temperature and incipient
liquid composition (`DewPoint.solve_Tx`). -/
def dew_Tx (a0 a1 : ℚ) (y : Comp2) (P : ℚ) : ℚ × Comp2 :=
  let B := y.c0 / a0 + y.c1 / a1
  (P * B, ⟨(y.c0 / a0) / B, (y.c1 / a1) / B⟩)

/-- Dew point at fixed composition and temperature: pressure and incipient
liquid composition (`DewPoint.solve_Px`). -/
def dew_Px (a0 a1 : ℚ) (y : Comp2) (T : ℚ) : ℚ × Comp2 :=
  let B := y.c0 / a0 + y.c1 / a1
  (T / B, ⟨(y.c0 / a0) / B, (y.c1 / a1) / B⟩)

/-- `BubblePointValues`: frozen result snapshot carrying solved T, P, the
component identifier list and the input composition (notebook cells 3-5 of the
phase-equilibrium tutorial). -/
structure BubblePointValues where
  T : ℚ
  P : ℚ
  IDs : List String
  z : Comp2
  y : Comp2
  deriving DecidableEq, Repr

/-- `DewPointValues`: frozen dew-point result snapshot. -/
structure DewPointValues where
  T : ℚ
  P : ℚ
  IDs : List String
  z : Comp2
  x : Comp2
  deriving DecidableEq, Repr

/-- A `BubblePoint` solver object, constructed once per chemical list. -/
structure BubblePoint where
  IDs : List String
  a0 : ℚ
  a1 : ℚ
  deriving DecidableEq, Repr

/-- A `DewPoint` solver object. -/
structure DewPoint where
  IDs : List String
  a0 : ℚ
  a1 : ℚ
  deriving DecidableEq, Repr

/-- `BubblePoint.__call__` with `T` given: returns `(P, y)` packaged with the
identifier list and the input `z`. -/
def BubblePoint.atT (bp : BubblePoint) (z : Comp2) (T : ℚ) : BubblePointValues :=
  let r := bubble_Py bp.a0 bp.a1 z T
  ⟨T, r.1, bp.IDs, z, r.2⟩

/-- `BubblePoint.__call__` with `P` given: returns `(T, y)`. -/
def BubblePoint.atP (bp : BubblePoint) (z : Comp2) (P : ℚ) : BubblePointValues :=
  let r := bubble_Ty bp.a0 bp.a1 z P
  ⟨r.1, P, bp.IDs, z, r.2⟩

/-- `DewPoint.__call__` with `T` given: returns `(P, x)`. -/
def DewPoint.atT (dp : DewPoint) (z : Comp2) (T : ℚ) : DewPointValues :=
  let r := dew_Px dp.a0 dp.a1 z T
  ⟨T, r.1, dp.IDs, z, r.2⟩

/-- `DewPoint.__call__` with `P` given: returns `(T, x)`. -/
def DewPoint.atP (dp : DewPoint) (z : Comp2) (P : ℚ) : DewPointValues :=
  let r := dew_Tx dp.a0 dp.a1 z P
  ⟨r.1, P, dp.IDs, z, r.2⟩

/-! ### The lever rule (`VLE._lever_rule`)

This is the one routine whose real code is visible in the repository, in the
`InfeasibleRegion` traceback of the phase-equilibrium notebook:

    split_frac = (self._z[0]-x[0])/(y[0]-x[0])
    if not -0.00001 < split_frac < 1.00001:
        raise InfeasibleRegion('phase composition')
    if split_frac > 1:
        split_frac = 1
    ...

the clamp of small negative values to 0 is cut off by the traceback and is
modelled from the spec ("values within that margin clamp to the corresponding
boundary rather than failing"). -/

/-- The ε margin used by `_lever_rule` (`0.00001` in the source). -/
def leverEps : ℚ := 1 / 100000

/-- `VLE._lever_rule` (vle.py lines 652-658): split fraction by the lever rule
with the ε-margin feasibility check and boundary clamping. -/
def lever_rule (z0 x0 y0 : ℚ) : Except EqError ℚ :=
  if ¬(-leverEps < (z0 - x0) / (y0 - x0) ∧ (z0 - x0) / (y0 - x0) < 1 + leverEps) then
    .error .infeasibleRegion
  else if 1 < (z0 - x0) / (y0 - x0) then .ok 1
  else if (z0 - x0) / (y0 - x0) < 0 then .ok 0
  else .ok ((z0 - x0) / (y0 - x0))

example : lever_rule (1/2) (3/5) (1/3) = .ok (3/8) := by
  norm_num [lever_rule, leverEps]

example : lever_rule (1/2) (4/5) (4/7) = .error .infeasibleRegion := by
  norm_num [lever_rule, leverEps]

/-! ### The two-phase flash (VLE) solver

Modelled from the spec (§4.2): a persistent solver object over a
`MaterialIndexer` (phase → component → molar flow) sharing a
`ThermalCondition`; called with exactly two degrees of freedom out of
{T, P, V, H, S, x, y}, dispatched once at entry to a specialized routine.  The
(T,P) core brackets the feed between the bubble and dew pressures at `T` and
solves the Rachford-Rice vapor-fraction equation; (V,P), (V,T), (H,P) and
(S,P) are outer root-finds (bisection with the provider's iteration budget)
nested around the same (T,P) phase-split core; (x,P) and (y,P) solve
bubble/dew directly and back out the split with the lever rule. -/

/-- Outcome of the (T,P) phase-split core: sub-cooled liquid, superheated
vapor, or a two-phase split with vapor fraction `V` and phase compositions. -/
inductive PhaseSplitOutcome where
  | liquidOnly
  | vaporOnly
  | twoPhase (V : ℚ) (x y : Comp2)
  deriving DecidableEq, Repr

/-- Closed-form root of the binary Rachford-Rice equation
`z0*(K0-1)/(1+V*(K0-1)) + z1*(K1-1)/(1+V*(K1-1)) = 0` for a normalized feed. -/
def RRV (z : Comp2) (K0 K1 : ℚ) : ℚ :=
  -(z.c0 * (K0 - 1) + z.c1 * (K1 - 1)) / ((K0 - 1) * (K1 - 1))

/-- Liquid composition of the Rachford-Rice split: `x_i = z_i/(1+V*(K_i-1))`. -/
def rrX (z : Comp2) (K0 K1 V : ℚ) : Comp2 :=
  ⟨z.c0 / (1 + V * (K0 - 1)), z.c1 / (1 + V * (K1 - 1))⟩

/-- Vapor composition of the Rachford-Rice split: `y_i = K_i * x_i`. -/
def rrY (z : Comp2) (K0 K1 V : ℚ) : Comp2 :=
  ⟨K0 * (z.c0 / (1 + V * (K0 - 1))), K1 * (z.c1 / (1 + V * (K1 - 1)))⟩

/-- The (T,P) phase-split core.  Validity of the state is checked eagerly
(`degenerate-input`, spec §7): positive provider slopes, positive T and P, and
a feed with both components present (a single-component feed is the
special-cased saturation-point edge case of spec §4.1, not a two-phase split).
The feed is bracketed between the bubble and dew pressures at `T`; inside the
bracket the Rachford-Rice root gives the vapor fraction. -/
def flash_TP (a0 a1 : ℚ) (z : Comp2) (T P : ℚ) : Except EqError PhaseSplitOutcome :=
  if 0 < a0 ∧ 0 < a1 ∧ 0 < T ∧ 0 < P ∧ 0 < z.c0 ∧ 0 < z.c1 then
    if T * (z.c0 * a0 + z.c1 * a1) ≤ P then .ok .liquidOnly
    else if P ≤ T / (z.c0 / a0 + z.c1 / a1) then .ok .vaporOnly
    else if a0 * T / P = 1 ∨ a1 * T / P = 1 then .error .degenerateInput
    else if 0 < RRV z (a0 * T / P) (a1 * T / P) ∧ RRV z (a0 * T / P) (a1 * T / P) < 1 then
      .ok (.twoPhase (RRV z (a0 * T / P) (a1 * T / P))
        (rrX z (a0 * T / P) (a1 * T / P) (RRV z (a0 * T / P) (a1 * T / P)))
        (rrY z (a0 * T / P) (a1 * T / P) (RRV z (a0 * T / P) (a1 * T / P))))
    else if RRV z (a0 * T / P) (a1 * T / P) ≤ 0 then .ok .liquidOnly
    else .ok .vaporOnly
  else .error .degenerateInput

/-- Overall molar composition of a feed vector. -/
def normC (m : Comp2) : Comp2 := ⟨m.c0 / (m.c0 + m.c1), m.c1 / (m.c0 + m.c1)⟩

/-- EquilibriumResult snapshot (spec §3): the frozen view of a solved phase
split — vapor fraction and the two phase compositions — produced once per
solver invocation. -/
structure EqSnapshot where
  V : ℚ
  x : Comp2
  y : Comp2
  deriving DecidableEq, Repr

/-- MaterialIndexer over the two phases of the VLE object: molar flows of the
gas (`g`) and liquid (`l`) phases. -/
structure MaterialIndexer where
  g : Comp2
  l : Comp2
  deriving DecidableEq, Repr

/-- The working state a VLE solver object owns: its material indexer, the
shared thermal condition, and the last solved equilibrium snapshot. -/
structure VLEState where
  imol : MaterialIndexer
  thermal : ThermalCondition
  result : EqSnapshot
  deriving DecidableEq, Repr

/-- Overall (phase-summed) molar flows of a VLE state. -/
def VLEState.totals (st : VLEState) : Comp2 := st.imol.g.add st.imol.l

/-- Write a solved outcome back into the indexer: the vapor phase receives
`F·V·y` and the liquid phase the remainder of the feed, so the indexer keeps
the overall material balance by construction; the thermal condition is set to
the solved (T, P). -/
def applyOutcome (m : Comp2) (z : Comp2) (T P : ℚ) :
    PhaseSplitOutcome → VLEState
  | .liquidOnly => ⟨⟨⟨0, 0⟩, m⟩, ⟨T, P⟩, ⟨0, z, z⟩⟩
  | .vaporOnly => ⟨⟨m, ⟨0, 0⟩⟩, ⟨T, P⟩, ⟨1, z, z⟩⟩
  | .twoPhase V x y =>
    let g := Comp2.smul (m.total * V) y
    ⟨⟨g, m.sub g⟩, ⟨T, P⟩, ⟨V, x, y⟩⟩

/-- Run the (T,P) flash on overall flows `m` and write the outcome back:
the shared tail of every specification route that pins (T,P). -/
def finishTP (pp : Provider) (m : Comp2) (T P : ℚ) : Except EqError VLEState :=
  if 0 < m.c0 ∧ 0 < m.c1 then
    (flash_TP pp.a0 pp.a1 (normC m) T P).map (applyOutcome m (normC m) T P)
  else .error .degenerateInput

/-- Bisection root-finder for an increasing objective, with an iteration
budget: returns the midpoint once the residual is within tolerance, or `none`
when the budget is exhausted (`solver-did-not-converge`, spec §5: a stuck
inner solve must not stall the outer loop). -/
def bisectSolve (g : ℚ → ℚ) (target tol : ℚ) : Nat → ℚ → ℚ → Option ℚ
  | 0, lo, hi =>
    let mid := (lo + hi) / 2
    if |g mid - target| ≤ tol then some mid else none
  | fuel + 1, lo, hi =>
    let mid := (lo + hi) / 2
    if |g mid - target| ≤ tol then some mid
    else if g mid < target then bisectSolve g target tol fuel mid hi
    else bisectSolve g target tol fuel lo mid

/-- Rachford-Rice vapor fraction at (T,P), clamped to [0,1]; the objective the
(V,·), (H,P) and (S,P) outer root-finds evaluate. -/
def clampedV (pp : Provider) (z : Comp2) (T P : ℚ) : ℚ :=
  min 1 (max 0 (RRV z (pp.a0 * T / P) (pp.a1 * T / P)))

/-- Mixture enthalpy of the feed `m` flashed at (T,P), from the provider's
linear phase-enthalpy model. -/
def mixtureH (pp : Provider) (m : Comp2) (P T : ℚ) : ℚ :=
  let V := clampedV pp (normC m) T P
  m.total * (V * (pp.cg * T + pp.hvap) + (1 - V) * (pp.cl * T))

/-- Mixture entropy of the feed `m` flashed at (T,P). -/
def mixtureS (pp : Provider) (m : Comp2) (P T : ℚ) : ℚ :=
  let V := clampedV pp (normC m) T P
  m.total * (V * (pp.sg * T + pp.svap) + (1 - V) * (pp.sl * T))

/-- Bubble temperature of `z` at `P` (lower end of the two-phase bracket). -/
def bubbleT (pp : Provider) (z : Comp2) (P : ℚ) : ℚ :=
  P / (z.c0 * pp.a0 + z.c1 * pp.a1)

/-- Dew temperature of `z` at `P` (upper end of the two-phase bracket). -/
def dewT (pp : Provider) (z : Comp2) (P : ℚ) : ℚ :=
  P * (z.c0 / pp.a0 + z.c1 / pp.a1)

/-- The feed/spec validity guard of the composition-driven routes. -/
def compSpecValid (pp : Provider) (m c : Comp2) (P : ℚ) : Prop :=
  0 < pp.a0 ∧ 0 < pp.a1 ∧ 0 < P ∧ 0 < m.c0 ∧ 0 < m.c1 ∧
    0 ≤ c.c0 ∧ 0 ≤ c.c1 ∧ c.c0 + c.c1 = 1

instance (pp : Provider) (m c : Comp2) (P : ℚ) : Decidable (compSpecValid pp m c P) := by
  unfold compSpecValid
  infer_instance

/-- `VLE.set_Px` (vle.py lines 670-673): binary systems only; solve the
bubble point at the given liquid composition and the supplied pressure for T
and the vapor composition, then back out the split fraction with the lever
rule.  Only the solved temperature is assigned to the shared thermal
condition (line 672 assigns `self._thermal_condition.T`); the stored pressure
`P0` is left at its prior value, as notebook cell 14 shows (`P` stays at the
previous call's 127822 after `vle(x=..., P=101325)`). -/
def set_Px (pp : Provider) (m : Comp2) (P0 : ℚ) (x : Comp2) (P : ℚ) :
    Except EqError VLEState :=
  if compSpecValid pp m x P then
    match lever_rule (m.c0 / (m.c0 + m.c1)) x.c0 (bubble_Ty pp.a0 pp.a1 x P).2.c0 with
    | .error e => .error e
    | .ok s =>
      .ok ⟨⟨Comp2.smul ((m.c0 + m.c1) * s) (bubble_Ty pp.a0 pp.a1 x P).2,
            m.sub (Comp2.smul ((m.c0 + m.c1) * s) (bubble_Ty pp.a0 pp.a1 x P).2)⟩,
          ⟨(bubble_Ty pp.a0 pp.a1 x P).1, P0⟩, ⟨s, x, (bubble_Ty pp.a0 pp.a1 x P).2⟩⟩
  else .error .degenerateInput

/-- `VLE.set_Py`: binary systems only; solve the dew point at the given vapor
composition and the supplied pressure for T and the liquid composition, then
apply the lever rule.  As in `set_Px`, only the solved temperature is written
to the thermal condition; the stored pressure `P0` keeps its prior value (the
composition routes of the `__call__` dispatch, vle.py 390-393, set no
pressure). -/
def set_Py (pp : Provider) (m : Comp2) (P0 : ℚ) (y : Comp2) (P : ℚ) :
    Except EqError VLEState :=
  if compSpecValid pp m y P then
    match lever_rule (m.c0 / (m.c0 + m.c1)) (dew_Tx pp.a0 pp.a1 y P).2.c0 y.c0 with
    | .error e => .error e
    | .ok s =>
      .ok ⟨⟨Comp2.smul ((m.c0 + m.c1) * s) y,
            m.sub (Comp2.smul ((m.c0 + m.c1) * s) y)⟩,
          ⟨(dew_Tx pp.a0 pp.a1 y P).1, P0⟩, ⟨s, (dew_Tx pp.a0 pp.a1 y P).2, y⟩⟩
  else .error .degenerateInput

/-- The tagged-variant flash specification (spec §9): which two degrees of
freedom a `VLE.__call__` receives. -/
inductive Spec2 where
  | TP (T P : ℚ)
  | VP (V P : ℚ)
  | VT (V T : ℚ)
  | HP (H P : ℚ)
  | SP (S P : ℚ)
  | xP (x : Comp2) (P : ℚ)
  | yP (y : Comp2) (P : ℚ)
  deriving DecidableEq, Repr

/-- `VLE.__call__` on the overall feed `m` with the solver's current thermal
condition `tc`: dispatch on the specification pair once at entry (spec §4.2).
Every route either pins (T,P) directly, solves the missing intensive variable
by bisection nested around the (T,P) core, or (for the composition-driven
binary specs) goes through bubble/dew plus the lever rule — those routes
write only the solved temperature and keep the stored pressure `tc.P`. -/
def VLE.callCore (pp : Provider) (m : Comp2) (tc : ThermalCondition) :
    Spec2 → Except EqError VLEState
  | .TP T P => finishTP pp m T P
  | .VP V P =>
    match bisectSolve (fun T => RRV (normC m) (pp.a0 * T / P) (pp.a1 * T / P)) V pp.tolV
        pp.fuel (bubbleT pp (normC m) P) (dewT pp (normC m) P) with
    | none => .error .solverDidNotConverge
    | some T => finishTP pp m T P
  | .VT V T =>
    match bisectSolve (fun P => -RRV (normC m) (pp.a0 * T / P) (pp.a1 * T / P)) (-V) pp.tolV
        pp.fuel (dew_Px pp.a0 pp.a1 (normC m) T).1 (bubble_Py pp.a0 pp.a1 (normC m) T).1 with
    | none => .error .solverDidNotConverge
    | some P => finishTP pp m T P
  | .HP H P =>
    match bisectSolve (mixtureH pp m P) H pp.tolH
        pp.fuel (bubbleT pp (normC m) P) (dewT pp (normC m) P) with
    | none => .error .solverDidNotConverge
    | some T => finishTP pp m T P
  | .SP S P =>
    match bisectSolve (mixtureS pp m P) S pp.tolS
        pp.fuel (bubbleT pp (normC m) P) (dewT pp (normC m) P) with
    | none => .error .solverDidNotConverge
    | some T => finishTP pp m T P
  | .xP x P => set_Px pp m tc.P x P
  | .yP y P => set_Py pp m tc.P y P

/-- `VLE.__call__` on a solver state: the solver reads the overall
(phase-summed) composition from its material indexer and its current thermal
condition, and overwrites the indexer, the thermal condition and the result
snapshot in place. -/
def VLE.call (pp : Provider) (st : VLEState) (spec : Spec2) : Except EqError VLEState :=
  VLE.callCore pp st.totals st.thermal spec

/-! ### The Flash unit operation

Modelled from the spec (§6, unit-operation interface) and the Getting-started
notebook: `bst.Flash('F1', ins=feed, V=0.1, P=101325)` followed by
`F1.simulate()` reads the inlet stream, runs the VLE solver with the (V,P)
specification, and writes the vapor phase to the first outlet (phase `'g'`)
and the liquid phase to the second (phase `'l'`), both at the solved thermal
condition. -/

/-- A material stream: phase label, thermal state and molar flows. -/
structure Stream where
  phase : Char
  T : ℚ
  P : ℚ
  mol : Comp2
  deriving DecidableEq, Repr

/-- A Flash unit-operation node: one inlet, a vapor and a liquid outlet, and
its (V, P) specification. -/
structure FlashUnit where
  ins : Stream
  outVap : Stream
  outLiq : Stream
  V : ℚ
  P : ℚ
  pp : Provider
  deriving DecidableEq, Repr

/-- `Flash.simulate`: run the (V,P) flash on the inlet flows and populate the
two outlet streams; the inlet is only read. -/
def Flash.simulate (u : FlashUnit) : Except EqError FlashUnit :=
  match VLE.callCore u.pp u.ins.mol ⟨u.ins.T, u.ins.P⟩ (.VP u.V u.P) with
  | .error e => .error e
  | .ok st =>
    .ok { u with
      outVap := ⟨'g', st.thermal.T, st.thermal.P, st.imol.g⟩,
      outLiq := ⟨'l', st.thermal.T, st.thermal.P, st.imol.l⟩ }

/-! ### The liquid-liquid equilibrium (LLE) solver

Modelled from the spec (§4.3): given overall composition and temperature
(pressure has no effect and is not accepted as a free variable), partition
into two liquid phases by successive substitution on activity coefficients —
compute activity coefficients of each phase from the Property Provider
(`activity(phase, composition, T)`, spec §6: no pressure argument), update the
per-component distribution toward the iso-fugacity condition, renormalize,
repeat.  Flows are a list of `(phase-l, phase-L)` pairs, one per component. -/

/-- Normalize a flow list to a composition (division is total on ℚ; an empty
phase yields the zero composition). -/
def normalizeL (l : List ℚ) : List ℚ :=
  let s := l.foldr (· + ·) 0
  l.map (fun q => q / s)

/-- One redistribution sweep: component `i`'s total `m_i` is split between the
phases according to the distribution ratio `K_i = γ2_i/γ1_i` from the
activity coefficients, writing `m_i·K_i/(1+K_i)` to the first phase and the
remainder to the second.  Components beyond the ratio list are left as-is. -/
def redistribute : List (ℚ × ℚ) → List ℚ → List (ℚ × ℚ)
  | [], _ => []
  | p :: fl, [] => p :: fl
  | p :: fl, k :: K =>
    let m := p.1 + p.2
    (m * k / (1 + k), m - m * k / (1 + k)) :: redistribute fl K

/-- One successive-substitution step of the LLE iteration: evaluate the
activity coefficients of both phases at the current compositions and the
given temperature, and redistribute every component's total. -/
def lleStep (γ : List ℚ → ℚ → List ℚ) (T : ℚ) (fl : List (ℚ × ℚ)) : List (ℚ × ℚ) :=
  let x1 := normalizeL (fl.map Prod.fst)
  let x2 := normalizeL (fl.map Prod.snd)
  let K := List.zipWith (fun g2 g1 => g2 / g1) (γ x2 T) (γ x1 T)
  redistribute fl K

/-- Iterate the substitution for the given budget. -/
def lleIter (γ : List ℚ → ℚ → List ℚ) (T : ℚ) : Nat → List (ℚ × ℚ) → List (ℚ × ℚ)
  | 0, fl => fl
  | n + 1, fl => lleIter γ T n (lleStep γ T fl)

/-- The LLE solver's working state: its molar-flow indexer over the two
liquid phases and the shared thermal condition. -/
structure LLEState where
  flows : List (ℚ × ℚ)
  thermal : ThermalCondition
  deriving DecidableEq, Repr

/-- `LLE.__call__(T)`: only temperature is accepted; the thermal condition's
temperature is updated, its pressure passes through untouched, and the phase
flows are re-partitioned by the activity-coefficient iteration. -/
def LLE.call (γ : List ℚ → ℚ → List ℚ) (fuel : Nat) (st : LLEState) (T : ℚ) : LLEState :=
  ⟨lleIter γ T fuel st.flows, ⟨T, st.thermal.P⟩⟩

/-- Per-component totals across the two liquid phases. -/
def lleTotals (fl : List (ℚ × ℚ)) : List ℚ := fl.map (fun p => p.1 + p.2)

/-- Relative split of the first liquid phase. -/
def lleSplit (fl : List (ℚ × ℚ)) : ℚ :=
  (fl.map Prod.fst).foldr (· + ·) 0 / (lleTotals fl).foldr (· + ·) 0

/-! ### The recycle convergence engine

Modelled from the spec (§4.5): per pass, execute every node in order — here
abstracted as one whole-flowsheet pass function `f` acting on the list of tear
streams — then compare every tear stream's new state against its state at the
start of the pass: per-component relative flow-rate error and absolute
temperature error against the configured tolerances, reporting the single
largest of each across all tear streams and components.  Converged → terminal
success with the loop count; pass budget exhausted → terminal failure carrying
the same diagnostics. -/

/-- A tear stream's state: component molar flows and temperature. -/
structure Tear where
  flows : List ℚ
  T : ℚ
  deriving DecidableEq, Repr

/-- Relative difference of one component's flow rate between two passes. -/
def relErr (a b : ℚ) : ℚ := |b - a| / max |a| |b|

/-- Per-component relative flow errors of one tear stream between passes. -/
def flowErrs (o n : Tear) : List ℚ := List.zipWith relErr o.flows n.flows

/-- Largest per-component relative flow error of one tear stream. -/
def tearFlowErr (o n : Tear) : ℚ := (flowErrs o n).foldr max 0

/-- Largest relative flow error across all tear streams and components. -/
def maxFlowErr (o n : List Tear) : ℚ :=
  ((o.zip n).map fun p => tearFlowErr p.1 p.2).foldr max 0

/-- Largest absolute temperature error across all tear streams. -/
def maxTErr (o n : List Tear) : ℚ :=
  ((o.zip n).map fun p => |p.2.T - p.1.T|).foldr max 0

/-- Terminal state of a convergence run: success with the loop count and the
largest flow/temperature errors, or failure (pass budget exceeded) carrying
the same diagnostics — never a bare state. -/
inductive RecycleResult where
  | converged (loops : Nat) (flowErr TErr : ℚ)
  | notConverged (flowErr TErr : ℚ)
  deriving DecidableEq, Repr

/-- The iteration core: run a pass, compare tear streams, stop on convergence,
recurse while the pass budget lasts, and fail loudly when it runs out. -/
def recycleAux (f : List Tear → List Tear) (tolF tolT : ℚ) :
    Nat → Nat → List Tear → RecycleResult
  | 0, loops, s =>
    let s' := f s
    let eF := maxFlowErr s s'
    let eT := maxTErr s s'
    if eF ≤ tolF ∧ eT ≤ tolT then .converged (loops + 1) eF eT
    else .notConverged eF eT
  | fuel + 1, loops, s =>
    let s' := f s
    let eF := maxFlowErr s s'
    let eT := maxTErr s s'
    if eF ≤ tolF ∧ eT ≤ tolT then .converged (loops + 1) eF eT
    else recycleAux f tolF tolT fuel (loops + 1) s'

/-- `System.simulate`'s convergence loop: iterate whole-flowsheet passes over
the tear streams until every error is within tolerance or the maximum pass
count `maxIter` is exceeded. -/
def System.converge (f : List Tear → List Tear) (tolF tolT : ℚ)
    (maxIter : Nat) (s : List Tear) : RecycleResult :=
  recycleAux f tolF tolT maxIter 0 s

/-! ## Helper lemmas -/

/-- A convex combination of two positive numbers is positive. -/
lemma convex_pos {p q a b : ℚ} (hp : 0 ≤ p) (hq : 0 ≤ q) (hpq : p + q = 1)
    (ha : 0 < a) (hb : 0 < b) : 0 < p * a + q * b := by
  rcases eq_or_lt_of_le hp with h | h
  · have hq1 : q = 1 := by linarith
    rw [← h, hq1]
    simpa using hb
  · have h1 : 0 < p * a := mul_pos h ha
    have h2 : 0 ≤ q * b := mul_nonneg hq hb.le
    linarith

/-- Everything the two-phase branch of the (T,P) core guarantees about its
inputs and outputs. -/
lemma flash_TP_twoPhase {a0 a1 : ℚ} {z : Comp2} {T P V : ℚ} {x y : Comp2}
    (h : flash_TP a0 a1 z T P = .ok (.twoPhase V x y)) :
    0 < a0 ∧ 0 < a1 ∧ 0 < T ∧ 0 < P ∧ 0 < z.c0 ∧ 0 < z.c1 ∧
      a0 * T / P ≠ 1 ∧ a1 * T / P ≠ 1 ∧
      V = RRV z (a0 * T / P) (a1 * T / P) ∧ 0 < V ∧ V < 1 ∧
      x = rrX z (a0 * T / P) (a1 * T / P) V ∧ y = rrY z (a0 * T / P) (a1 * T / P) V := by
  unfold flash_TP at h
  split_ifs at h with h1 h2 h3 h4 h5 h6 <;> simp at h
  obtain ⟨hV, hx, hy⟩ := h
  subst hV
  subst hx
  subst hy
  exact ⟨h1.1, h1.2.1, h1.2.2.1, h1.2.2.2.1, h1.2.2.2.2.1, h1.2.2.2.2.2,
    fun hc => h4 (Or.inl hc), fun hc => h4 (Or.inr hc), rfl, h5.1, h5.2, rfl, rfl⟩

/-- The Rachford-Rice identities for the binary closed-form root: both phase
compositions sum to one and the component-wise mole balance holds exactly. -/
lemma rr_identities {z : Comp2} {K0 K1 : ℚ} (hz : z.c0 + z.c1 = 1)
    (hK0 : K0 ≠ 1) (hK1 : K1 ≠ 1)
    (hD0 : 1 + RRV z K0 K1 * (K0 - 1) ≠ 0) (hD1 : 1 + RRV z K0 K1 * (K1 - 1) ≠ 0) :
    (rrX z K0 K1 (RRV z K0 K1)).total = 1 ∧
    (rrY z K0 K1 (RRV z K0 K1)).total = 1 ∧
    RRV z K0 K1 * (rrY z K0 K1 (RRV z K0 K1)).c0 +
      (1 - RRV z K0 K1) * (rrX z K0 K1 (RRV z K0 K1)).c0 = z.c0 ∧
    RRV z K0 K1 * (rrY z K0 K1 (RRV z K0 K1)).c1 +
      (1 - RRV z K0 K1) * (rrX z K0 K1 (RRV z K0 K1)).c1 = z.c1 := by
  have hK0' : K0 - 1 ≠ 0 := sub_ne_zero.2 hK0
  have hK1' : K1 - 1 ≠ 0 := sub_ne_zero.2 hK1
  have key : z.c0 * (K0 - 1) + z.c1 * (K1 - 1) + RRV z K0 K1 * ((K0 - 1) * (K1 - 1)) = 0 := by
    unfold RRV
    field_simp
    ring
  obtain ⟨z0, z1⟩ := z
  simp only at hz
  have hz1 : z1 = 1 - z0 := by linarith
  subst hz1
  simp only [Comp2.total, rrX, rrY] at *
  set V := RRV ⟨z0, 1 - z0⟩ K0 K1 with hVdef
  refine ⟨?_, ?_, ?_, ?_⟩
  · field_simp
    linear_combination (-V) * key
  · field_simp
    linear_combination (1 - V) * key
  · field_simp
    ring
  · field_simp
    ring

/-- The write-back leaves the thermal condition at the solved (T, P). -/
lemma applyOutcome_thermal (m z : Comp2) (T P : ℚ) (o : PhaseSplitOutcome) :
    (applyOutcome m z T P o).thermal = ⟨T, P⟩ := by
  cases o <;> simp [applyOutcome]

/-- The write-back conserves the overall flows: vapor gets `F·V·y` and liquid
the remainder of the feed. -/
lemma applyOutcome_totals (m z : Comp2) (T P : ℚ) (o : PhaseSplitOutcome) :
    (applyOutcome m z T P o).totals = m := by
  obtain ⟨m0, m1⟩ := m
  cases o <;>
    simp [applyOutcome, VLEState.totals, Comp2.add, Comp2.sub, Comp2.smul, Comp2.total]

/-- Eliminate a successful `finishTP`: the feed guard held and the state is a
written-back flash outcome. -/
lemma finishTP_elim {pp : Provider} {m : Comp2} {T P : ℚ} {st' : VLEState}
    (h : finishTP pp m T P = .ok st') :
    (0 < m.c0 ∧ 0 < m.c1) ∧
      ∃ o, flash_TP pp.a0 pp.a1 (normC m) T P = .ok o ∧
        st' = applyOutcome m (normC m) T P o := by
  unfold finishTP at h
  split_ifs at h with hm
  · cases hf : flash_TP pp.a0 pp.a1 (normC m) T P with
    | error e => rw [hf] at h; simp [Except.map] at h
    | ok o =>
      rw [hf] at h
      simp only [Except.map, Except.ok.injEq] at h
      exact ⟨hm, o, rfl, h.symm⟩

/-- A successful `finishTP` leaves the thermal condition at the given (T,P)
and conserves the overall flows. -/
lemma finishTP_state {pp : Provider} {m : Comp2} {T P : ℚ} {st' : VLEState}
    (h : finishTP pp m T P = .ok st') :
    st'.thermal = ⟨T, P⟩ ∧ st'.totals = m := by
  obtain ⟨-, o, -, hst⟩ := finishTP_elim h
  subst hst
  exact ⟨applyOutcome_thermal .., applyOutcome_totals ..⟩

/-- What a successful lever rule returns: the raw split was inside the ε
margin and the returned value is its clamp to [0,1]. -/
lemma lever_rule_ok {z0 x0 y0 s : ℚ} (h : lever_rule z0 x0 y0 = .ok s) :
    -leverEps < (z0 - x0) / (y0 - x0) ∧ (z0 - x0) / (y0 - x0) < 1 + leverEps ∧
      s = min 1 (max 0 ((z0 - x0) / (y0 - x0))) := by
  unfold lever_rule at h
  split_ifs at h with h1 h2 h3 <;> simp at h <;> push_neg at h1
  · refine ⟨h1.1, h1.2, ?_⟩
    rw [max_eq_right (by linarith : (0:ℚ) ≤ (z0 - x0) / (y0 - x0)),
      min_eq_left (by linarith : (1:ℚ) ≤ (z0 - x0) / (y0 - x0)), ← h]
  · refine ⟨h1.1, h1.2, ?_⟩
    rw [max_eq_left (le_of_lt h3), min_eq_right (by norm_num : (0:ℚ) ≤ 1), ← h]
  · push_neg at h2 h3
    refine ⟨h1.1, h1.2, ?_⟩
    rw [max_eq_right h3, min_eq_right h2, ← h]

/-- A strictly interior lever-rule result is the raw lever-rule value. -/
lemma lever_rule_interior {z0 x0 y0 s : ℚ} (h : lever_rule z0 x0 y0 = .ok s)
    (h0 : 0 < s) (h1 : s < 1) : s = (z0 - x0) / (y0 - x0) := by
  obtain ⟨hl, hr, hs⟩ := lever_rule_ok h
  rcases le_or_lt ((z0 - x0) / (y0 - x0)) 0 with hc | hc
  · rw [hs, max_eq_left hc, min_eq_right (by norm_num)] at h0
    exact absurd h0 (by norm_num)
  rcases le_or_lt 1 ((z0 - x0) / (y0 - x0)) with hc' | hc'
  · rw [hs, max_eq_right hc.le, min_eq_left hc'] at h1
    exact absurd h1 (by norm_num)
  rw [hs, max_eq_right hc.le, min_eq_right hc'.le]

/-- Eliminate a successful `set_Px`: the guard held, the lever rule succeeded,
and the state is the bubble-point solution with the lever-rule split. -/
lemma set_Px_elim {pp : Provider} {m x : Comp2} {P0 P : ℚ} {st' : VLEState}
    (h : set_Px pp m P0 x P = .ok st') :
    compSpecValid pp m x P ∧
    ∃ s, lever_rule (m.c0 / (m.c0 + m.c1)) x.c0 (bubble_Ty pp.a0 pp.a1 x P).2.c0 = .ok s ∧
      st' = ⟨⟨Comp2.smul ((m.c0 + m.c1) * s) (bubble_Ty pp.a0 pp.a1 x P).2,
              m.sub (Comp2.smul ((m.c0 + m.c1) * s) (bubble_Ty pp.a0 pp.a1 x P).2)⟩,
            ⟨(bubble_Ty pp.a0 pp.a1 x P).1, P0⟩, ⟨s, x, (bubble_Ty pp.a0 pp.a1 x P).2⟩⟩ := by
  unfold set_Px at h
  split_ifs at h with hg
  cases hl : lever_rule (m.c0 / (m.c0 + m.c1)) x.c0 (bubble_Ty pp.a0 pp.a1 x P).2.c0 with
  | error e => rw [hl] at h; simp at h
  | ok s =>
    rw [hl] at h
    simp only [Except.ok.injEq] at h
    exact ⟨hg, s, rfl, h.symm⟩

/-- Eliminate a successful `set_Py`. -/
lemma set_Py_elim {pp : Provider} {m y : Comp2} {P0 P : ℚ} {st' : VLEState}
    (h : set_Py pp m P0 y P = .ok st') :
    compSpecValid pp m y P ∧
    ∃ s, lever_rule (m.c0 / (m.c0 + m.c1)) (dew_Tx pp.a0 pp.a1 y P).2.c0 y.c0 = .ok s ∧
      st' = ⟨⟨Comp2.smul ((m.c0 + m.c1) * s) y,
              m.sub (Comp2.smul ((m.c0 + m.c1) * s) y)⟩,
            ⟨(dew_Tx pp.a0 pp.a1 y P).1, P0⟩, ⟨s, (dew_Tx pp.a0 pp.a1 y P).2, y⟩⟩ := by
  unfold set_Py at h
  split_ifs at h with hg
  cases hl : lever_rule (m.c0 / (m.c0 + m.c1)) (dew_Tx pp.a0 pp.a1 y P).2.c0 y.c0 with
  | error e => rw [hl] at h; simp at h
  | ok s =>
    rw [hl] at h
    simp only [Except.ok.injEq] at h
    exact ⟨hg, s, rfl, h.symm⟩

/-- Every route of `VLE.callCore` factors through the (T,P) finish or one of
the two composition-driven routes. -/
lemma callCore_elim {pp : Provider} {m : Comp2} {tc : ThermalCondition} {spec : Spec2}
    {st' : VLEState} (h : VLE.callCore pp m tc spec = .ok st') :
    (∃ T P, finishTP pp m T P = .ok st') ∨
    (∃ x P, set_Px pp m tc.P x P = .ok st') ∨
    (∃ y P, set_Py pp m tc.P y P = .ok st') := by
  cases spec with
  | TP T P => exact Or.inl ⟨T, P, h⟩
  | VP V P =>
    simp only [VLE.callCore] at h
    cases hb : bisectSolve (fun T => RRV (normC m) (pp.a0 * T / P) (pp.a1 * T / P)) V pp.tolV
        pp.fuel (bubbleT pp (normC m) P) (dewT pp (normC m) P) with
    | none => rw [hb] at h; simp at h
    | some T => rw [hb] at h; exact Or.inl ⟨T, P, h⟩
  | VT V T =>
    simp only [VLE.callCore] at h
    cases hb : bisectSolve (fun P => -RRV (normC m) (pp.a0 * T / P) (pp.a1 * T / P)) (-V) pp.tolV
        pp.fuel (dew_Px pp.a0 pp.a1 (normC m) T).1 (bubble_Py pp.a0 pp.a1 (normC m) T).1 with
    | none => rw [hb] at h; simp at h
    | some P => rw [hb] at h; exact Or.inl ⟨T, P, h⟩
  | HP H P =>
    simp only [VLE.callCore] at h
    cases hb : bisectSolve (mixtureH pp m P) H pp.tolH
        pp.fuel (bubbleT pp (normC m) P) (dewT pp (normC m) P) with
    | none => rw [hb] at h; simp at h
    | some T => rw [hb] at h; exact Or.inl ⟨T, P, h⟩
  | SP S P =>
    simp only [VLE.callCore] at h
    cases hb : bisectSolve (mixtureS pp m P) S pp.tolS
        pp.fuel (bubbleT pp (normC m) P) (dewT pp (normC m) P) with
    | none => rw [hb] at h; simp at h
    | some T => rw [hb] at h; exact Or.inl ⟨T, P, h⟩
  | xP x P => exact Or.inr (Or.inl ⟨x, P, h⟩)
  | yP y P => exact Or.inr (Or.inr ⟨y, P, h⟩)

/-- The success guarantee of spec §4.2 on a solved state: both phase
compositions of the result snapshot sum to 1, the component-wise mole balance
`z = V·y + (1−V)·x` holds against the overall feed composition, and the
solved temperature and pressure are strictly positive. -/
def flashGuarantee (m : Comp2) (st : VLEState) : Prop :=
  st.result.x.total = 1 ∧ st.result.y.total = 1 ∧
  st.result.V * st.result.y.c0 + (1 - st.result.V) * st.result.x.c0 = m.c0 / (m.c0 + m.c1) ∧
  st.result.V * st.result.y.c1 + (1 - st.result.V) * st.result.x.c1 = m.c1 / (m.c0 + m.c1) ∧
  0 < st.thermal.T ∧ 0 < st.thermal.P

/-- The (T,P)-core routes satisfy the success guarantee on any genuinely
two-phase result. -/
lemma finishTP_guarantee {pp : Provider} {m : Comp2} {T P : ℚ} {st' : VLEState}
    (h : finishTP pp m T P = .ok st')
    (hV0 : 0 < st'.result.V) (hV1 : st'.result.V < 1) :
    flashGuarantee m st' := by
  obtain ⟨⟨hm0, hm1⟩, o, hf, hst⟩ := finishTP_elim h
  subst hst
  cases o with
  | liquidOnly => simp [applyOutcome] at hV0
  | vaporOnly => simp [applyOutcome] at hV1
  | twoPhase V x y =>
    obtain ⟨ha0, ha1, hT, hP, hz0, hz1, hK0, hK1, hVr, hVl, hVu, hx, hy⟩ :=
      flash_TP_twoPhase hf
    subst hVr
    subst hx
    subst hy
    have hK0pos : 0 < pp.a0 * T / P := div_pos (mul_pos ha0 hT) hP
    have hK1pos : 0 < pp.a1 * T / P := div_pos (mul_pos ha1 hT) hP
    have hF : m.c0 + m.c1 ≠ 0 := by positivity
    have hzsum : (normC m).c0 + (normC m).c1 = 1 := by
      simp only [normC]
      field_simp
    have hD0 : 1 + RRV (normC m) (pp.a0 * T / P) (pp.a1 * T / P) * (pp.a0 * T / P - 1) ≠ 0 := by
      have : 0 < 1 + RRV (normC m) (pp.a0 * T / P) (pp.a1 * T / P) * (pp.a0 * T / P - 1) := by
        nlinarith [mul_pos hVl hK0pos]
      exact this.ne'
    have hD1 : 1 + RRV (normC m) (pp.a0 * T / P) (pp.a1 * T / P) * (pp.a1 * T / P - 1) ≠ 0 := by
      have : 0 < 1 + RRV (normC m) (pp.a0 * T / P) (pp.a1 * T / P) * (pp.a1 * T / P - 1) := by
        nlinarith [mul_pos hVl hK1pos]
      exact this.ne'
    obtain ⟨hxt, hyt, hb0, hb1⟩ := rr_identities hzsum hK0 hK1 hD0 hD1
    refine ⟨?_, ?_, ?_, ?_, ?_, ?_⟩ <;>
      simp only [applyOutcome, normC] at hxt hyt hb0 hb1 ⊢ <;>
      first
        | exact hxt
        | exact hyt
        | exact hb0
        | exact hb1
        | exact hT
        | exact hP

/-- The (x,P) route satisfies the success guarantee on any genuinely
two-phase result. -/
lemma set_Px_guarantee {pp : Provider} {m x : Comp2} {P0 P : ℚ} {st' : VLEState}
    (h : set_Px pp m P0 x P = .ok st') (hP0 : 0 < P0)
    (hV0 : 0 < st'.result.V) (hV1 : st'.result.V < 1) :
    flashGuarantee m st' := by
  obtain ⟨⟨ha0, ha1, hP, hm0, hm1, hx0, hx1, hxs⟩, s, hl, hst⟩ := set_Px_elim h
  subst hst
  simp only [EqSnapshot.mk.injEq] at hV0 hV1 ⊢
  have hA : 0 < x.c0 * pp.a0 + x.c1 * pp.a1 := convex_pos hx0 hx1 hxs ha0 ha1
  have hF : m.c0 + m.c1 ≠ 0 := by positivity
  have hytot : (bubble_Ty pp.a0 pp.a1 x P).2.total = 1 := by
    simp only [bubble_Ty, Comp2.total]
    field_simp
  have hzsum : m.c0 / (m.c0 + m.c1) + m.c1 / (m.c0 + m.c1) = 1 := by
    field_simp
  have hs : s = (m.c0 / (m.c0 + m.c1) - x.c0) /
      ((bubble_Ty pp.a0 pp.a1 x P).2.c0 - x.c0) := lever_rule_interior hl hV0 hV1
  have hden : (bubble_Ty pp.a0 pp.a1 x P).2.c0 - x.c0 ≠ 0 := by
    intro hc
    rw [hc, div_zero] at hs
    exact absurd hs.symm hV0.ne
  have hbal0 : s * (bubble_Ty pp.a0 pp.a1 x P).2.c0 + (1 - s) * x.c0 =
      m.c0 / (m.c0 + m.c1) := by
    have hmul : s * ((bubble_Ty pp.a0 pp.a1 x P).2.c0 - x.c0) =
        m.c0 / (m.c0 + m.c1) - x.c0 := by
      rw [hs, div_mul_cancel₀ _ hden]
    linear_combination hmul
  refine ⟨hxs, hytot, hbal0, ?_, div_pos hP hA, hP0⟩
  have hy1 : (bubble_Ty pp.a0 pp.a1 x P).2.c1 =
      1 - (bubble_Ty pp.a0 pp.a1 x P).2.c0 := by
    have := hytot
    simp only [Comp2.total] at this
    linarith
  rw [hy1]
  have hx1' : x.c1 = 1 - x.c0 := by linarith
  rw [hx1']
  have hz1 : m.c1 / (m.c0 + m.c1) = 1 - m.c0 / (m.c0 + m.c1) := by linarith
  rw [hz1]
  linear_combination (-1 : ℚ) * hbal0

/-- The (y,P) route satisfies the success guarantee on any genuinely
two-phase result. -/
lemma set_Py_guarantee {pp : Provider} {m y : Comp2} {P0 P : ℚ} {st' : VLEState}
    (h : set_Py pp m P0 y P = .ok st') (hP0 : 0 < P0)
    (hV0 : 0 < st'.result.V) (hV1 : st'.result.V < 1) :
    flashGuarantee m st' := by
  obtain ⟨⟨ha0, ha1, hP, hm0, hm1, hy0, hy1, hys⟩, s, hl, hst⟩ := set_Py_elim h
  subst hst
  simp only [EqSnapshot.mk.injEq] at hV0 hV1 ⊢
  have hB : 0 < y.c0 / pp.a0 + y.c1 / pp.a1 := by
    have h1 : y.c0 / pp.a0 = y.c0 * (1 / pp.a0) := by ring
    have h2 : y.c1 / pp.a1 = y.c1 * (1 / pp.a1) := by ring
    rw [h1, h2]
    exact convex_pos hy0 hy1 hys (by positivity) (by positivity)
  have hF : m.c0 + m.c1 ≠ 0 := by positivity
  have hBne : y.c0 * pp.a1 + y.c1 * pp.a0 ≠ 0 :=
    (convex_pos hy0 hy1 hys ha1 ha0).ne'
  have hxtot : (dew_Tx pp.a0 pp.a1 y P).2.total = 1 := by
    simp only [dew_Tx, Comp2.total]
    field_simp
    ring
  have hzsum : m.c0 / (m.c0 + m.c1) + m.c1 / (m.c0 + m.c1) = 1 := by
    field_simp
  have hs : s = (m.c0 / (m.c0 + m.c1) - (dew_Tx pp.a0 pp.a1 y P).2.c0) /
      (y.c0 - (dew_Tx pp.a0 pp.a1 y P).2.c0) := lever_rule_interior hl hV0 hV1
  have hden : y.c0 - (dew_Tx pp.a0 pp.a1 y P).2.c0 ≠ 0 := by
    intro hc
    rw [hc, div_zero] at hs
    exact absurd hs.symm hV0.ne
  have hbal0 : s * y.c0 + (1 - s) * (dew_Tx pp.a0 pp.a1 y P).2.c0 =
      m.c0 / (m.c0 + m.c1) := by
    have hmul : s * (y.c0 - (dew_Tx pp.a0 pp.a1 y P).2.c0) =
        m.c0 / (m.c0 + m.c1) - (dew_Tx pp.a0 pp.a1 y P).2.c0 := by
      rw [hs, div_mul_cancel₀ _ hden]
    linear_combination hmul
  refine ⟨hxtot, hys, hbal0, ?_, mul_pos hP hB, hP0⟩
  have hx1 : (dew_Tx pp.a0 pp.a1 y P).2.c1 =
      1 - (dew_Tx pp.a0 pp.a1 y P).2.c0 := by
    have := hxtot
    simp only [Comp2.total] at this
    linarith
  rw [hx1]
  have hy1' : y.c1 = 1 - y.c0 := by linarith
  rw [hy1']
  have hz1 : m.c1 / (m.c0 + m.c1) = 1 - m.c0 / (m.c0 + m.c1) := by linarith
  rw [hz1]
  linear_combination (-1 : ℚ) * hbal0

/-- The (x,P) route conserves the overall flows. -/
lemma set_Px_totals {pp : Provider} {m x : Comp2} {P0 P : ℚ} {st' : VLEState}
    (h : set_Px pp m P0 x P = .ok st') : st'.totals = m := by
  obtain ⟨-, s, -, hst⟩ := set_Px_elim h
  subst hst
  obtain ⟨m0, m1⟩ := m
  simp [VLEState.totals, Comp2.add, Comp2.sub, Comp2.smul]

/-- The (y,P) route conserves the overall flows. -/
lemma set_Py_totals {pp : Provider} {m y : Comp2} {P0 P : ℚ} {st' : VLEState}
    (h : set_Py pp m P0 y P = .ok st') : st'.totals = m := by
  obtain ⟨-, s, -, hst⟩ := set_Py_elim h
  subst hst
  obtain ⟨m0, m1⟩ := m
  simp [VLEState.totals, Comp2.add, Comp2.sub, Comp2.smul]

/-- Every successful `VLE.__call__` conserves the per-component overall
flows held in the material indexer. -/
lemma callCore_totals {pp : Provider} {m : Comp2} {tc : ThermalCondition} {spec : Spec2}
    {st' : VLEState} (h : VLE.callCore pp m tc spec = .ok st') : st'.totals = m := by
  rcases callCore_elim h with ⟨T, P, hf⟩ | ⟨x, P, hf⟩ | ⟨y, P, hf⟩
  · exact (finishTP_state hf).2
  · exact set_Px_totals hf
  · exact set_Py_totals hf

/-- The raw lever-rule split of the (x,P) route on feed `m`. -/
def leverSplitPx (pp : Provider) (m x : Comp2) (P : ℚ) : ℚ :=
  (m.c0 / (m.c0 + m.c1) - x.c0) / ((bubble_Ty pp.a0 pp.a1 x P).2.c0 - x.c0)

/-- The raw lever-rule split of the (y,P) route on feed `m`. -/
def leverSplitPy (pp : Provider) (m y : Comp2) (P : ℚ) : ℚ :=
  (m.c0 / (m.c0 + m.c1) - (dew_Tx pp.a0 pp.a1 y P).2.c0) /
    (y.c0 - (dew_Tx pp.a0 pp.a1 y P).2.c0)

/-- Behaviour of the lever rule as a function of its raw split value. -/
lemma lever_rule_cases (z0 x0 y0 : ℚ) :
    ((z0 - x0) / (y0 - x0) < -leverEps ∨ 1 + leverEps < (z0 - x0) / (y0 - x0) →
      lever_rule z0 x0 y0 = .error .infeasibleRegion) ∧
    (-leverEps < (z0 - x0) / (y0 - x0) ∧ (z0 - x0) / (y0 - x0) < 0 →
      lever_rule z0 x0 y0 = .ok 0) ∧
    (1 < (z0 - x0) / (y0 - x0) ∧ (z0 - x0) / (y0 - x0) < 1 + leverEps →
      lever_rule z0 x0 y0 = .ok 1) := by
  unfold lever_rule
  have heps : (0:ℚ) < leverEps := by norm_num [leverEps]
  refine ⟨fun hc => ?_, fun hc => ?_, fun hc => ?_⟩
  · rw [if_pos]
    push_neg
    intro hl
    rcases hc with hc | hc
    · exact absurd hc (by linarith)
    · linarith
  · rw [if_neg (by push_neg; constructor <;> linarith), if_neg (by linarith), if_pos hc.2]
  · rw [if_neg (by push_neg; constructor <;> linarith), if_pos hc.1]

/-- The (V,P) route pins the solved state's pressure at the supplied `P`. -/
lemma callCore_VP_pressure {pp : Provider} {m : Comp2} {tc : ThermalCondition}
    {V P : ℚ} {st' : VLEState}
    (h : VLE.callCore pp m tc (.VP V P) = .ok st') : st'.thermal.P = P := by
  simp only [VLE.callCore] at h
  cases hb : bisectSolve (fun T => RRV (normC m) (pp.a0 * T / P) (pp.a1 * T / P)) V pp.tolV
      pp.fuel (bubbleT pp (normC m) P) (dewT pp (normC m) P) with
  | none => rw [hb] at h; simp at h
  | some T => rw [hb] at h; rw [(finishTP_state h).1]

/-- One redistribution sweep conserves every component's total. -/
lemma redistribute_totals (fl : List (ℚ × ℚ)) (K : List ℚ) :
    lleTotals (redistribute fl K) = lleTotals fl := by
  induction fl generalizing K with
  | nil => cases K <;> simp [redistribute, lleTotals]
  | cons p fl ih =>
    cases K with
    | nil => simp [redistribute]
    | cons k K =>
      simp only [redistribute, lleTotals, List.map_cons, List.map]
      have hh : p.1 + p.2 - (p.1 + p.2) * k / (1 + k) + (p.1 + p.2) * k / (1 + k) =
          p.1 + p.2 := by ring
      simp only [lleTotals] at ih
      rw [ih]
      congr 1
      ring

/-- The LLE iteration conserves every component's total. -/
lemma lleIter_totals (γ : List ℚ → ℚ → List ℚ) (T : ℚ) (fuel : Nat) (fl : List (ℚ × ℚ)) :
    lleTotals (lleIter γ T fuel fl) = lleTotals fl := by
  induction fuel generalizing fl with
  | zero => rfl
  | succ n ih =>
    simp only [lleIter]
    rw [ih, lleStep, redistribute_totals]

/-- Every member of a list is bounded by its max-fold. -/
lemma le_foldr_max {l : List ℚ} {b x : ℚ} (hx : x ∈ l) : x ≤ l.foldr max b := by
  induction l with
  | nil => cases hx
  | cons a t ih =>
    rcases List.mem_cons.1 hx with h | h
    · subst h; exact le_max_left _ _
    · exact le_trans (ih h) (le_max_right _ _)

/-- The full behaviour of the convergence loop: it either converges at some
pass within the budget, returning that pass's diagnostics, which are within
tolerance; or it exhausts the budget and reports the final pass's
out-of-tolerance diagnostics. -/
lemma recycleAux_spec (f : List Tear → List Tear) (tolF tolT : ℚ) :
    ∀ (fuel loops : Nat) (s : List Tear),
      (∃ k, k ≤ fuel ∧
        recycleAux f tolF tolT fuel loops s =
          .converged (loops + k + 1) (maxFlowErr (f^[k] s) (f^[k + 1] s))
            (maxTErr (f^[k] s) (f^[k + 1] s)) ∧
        maxFlowErr (f^[k] s) (f^[k + 1] s) ≤ tolF ∧
        maxTErr (f^[k] s) (f^[k + 1] s) ≤ tolT) ∨
      (recycleAux f tolF tolT fuel loops s =
          .notConverged (maxFlowErr (f^[fuel] s) (f^[fuel + 1] s))
            (maxTErr (f^[fuel] s) (f^[fuel + 1] s)) ∧
        ¬(maxFlowErr (f^[fuel] s) (f^[fuel + 1] s) ≤ tolF ∧
          maxTErr (f^[fuel] s) (f^[fuel + 1] s) ≤ tolT)) := by
  intro fuel
  induction fuel with
  | zero =>
    intro loops s
    by_cases hc : maxFlowErr s (f s) ≤ tolF ∧ maxTErr s (f s) ≤ tolT
    · exact Or.inl ⟨0, le_refl _, by simp [recycleAux, if_pos hc], by simpa using hc.1,
        by simpa using hc.2⟩
    · exact Or.inr ⟨by simp [recycleAux, if_neg hc], by simpa using hc⟩
  | succ n ih =>
    intro loops s
    by_cases hc : maxFlowErr s (f s) ≤ tolF ∧ maxTErr s (f s) ≤ tolT
    · exact Or.inl ⟨0, Nat.zero_le _, by simp [recycleAux, if_pos hc], by simpa using hc.1,
        by simpa using hc.2⟩
    · have hstep : recycleAux f tolF tolT (n + 1) loops s =
          recycleAux f tolF tolT n (loops + 1) (f s) := by
        simp [recycleAux, if_neg hc]
      rcases ih (loops + 1) (f s) with ⟨k, hk, heq, h1, h2⟩ | ⟨heq, hne⟩
      · refine Or.inl ⟨k + 1, Nat.succ_le_succ hk, ?_, ?_, ?_⟩
        · rw [hstep, heq]
          simp only [Function.iterate_succ_apply]
          congr 1
          omega
        · simpa [Function.iterate_succ_apply] using h1
        · simpa [Function.iterate_succ_apply] using h2
      · refine Or.inr ⟨?_, ?_⟩
        · rw [hstep, heq]
          simp only [Function.iterate_succ_apply]
        · simpa [Function.iterate_succ_apply] using hne

/-- Every per-component relative flow error of every tear stream is bounded
by the reported maximum. -/
lemma maxFlowErr_dominates {o n : List Tear} {p : Tear × Tear} (hp : p ∈ o.zip n)
    {e : ℚ} (he : e ∈ flowErrs p.1 p.2) : e ≤ maxFlowErr o n := by
  unfold maxFlowErr
  refine le_trans ?_ (le_foldr_max (List.mem_map_of_mem _ hp))
  exact le_foldr_max he

/-- Every tear stream's temperature error is bounded by the reported maximum. -/
lemma maxTErr_dominates {o n : List Tear} {p : Tear × Tear} (hp : p ∈ o.zip n) :
    |p.2.T - p.1.T| ≤ maxTErr o n := by
  unfold maxTErr
  exact le_foldr_max (List.mem_map_of_mem _ hp)

/-! ## Concrete instances used by the witnesses -/

/-- A concrete ideal provider: component 1 three times as volatile as
component 0. -/
def ppW : Provider := ⟨1, 3, 2, 1, 5, 2, 1, 3, 5, 1/10, 1/10, 1/10⟩

/-- The solved state of the equimolar feed flashed at T = 7/12, P = 1. -/
def stW : VLEState :=
  ⟨⟨⟨2/5, 2/3⟩, ⟨3/5, 1/3⟩⟩, ⟨7/12, 1⟩, ⟨8/15, ⟨9/14, 5/14⟩, ⟨3/8, 5/8⟩⟩⟩

/-- A prior thermal condition whose stored pressure 5/4 differs from the
supplied pressure 1 of the composition-spec calls below. -/
def tcW : ThermalCondition := ⟨360, 5/4⟩

/-- The solved state of the equimolar feed under the (x,P) spec x = (3/5, 2/5),
P = 1 (equally the (y,P) spec y = (1/3, 2/3)) starting from `tcW`: only the
solved temperature is written, the stored pressure stays at 5/4. -/
def stPxWp : VLEState :=
  ⟨⟨⟨1/4, 1/2⟩, ⟨3/4, 1/2⟩⟩, ⟨5/9, 5/4⟩, ⟨3/8, ⟨3/5, 2/5⟩, ⟨1/3, 2/3⟩⟩⟩

/-- A concrete inlet stream. -/
def inW : Stream := ⟨'l', 298, 1, ⟨1, 1⟩⟩

/-- An empty placeholder outlet. -/
def emptyS : Stream := ⟨'l', 0, 0, ⟨0, 0⟩⟩

/-- A concrete Flash unit with the (V = 1/2, P = 1) specification. -/
def uW : FlashUnit := ⟨inW, emptyS, emptyS, 1/2, 1, ppW⟩

/-- The Flash unit after a successful simulate. -/
def uWo : FlashUnit :=
  ⟨inW, ⟨'g', 7/12, 1, ⟨2/5, 2/3⟩⟩, ⟨'l', 7/12, 1, ⟨3/5, 1/3⟩⟩, 1/2, 1, ppW⟩

/-- A concrete activity-coefficient model for the LLE witness. -/
def actW : List ℚ → ℚ → List ℚ := fun x _ => x.map (fun q => q + 1)

/-- A concrete LLE state. -/
def lstW : LLEState := ⟨[(1, 2), (3, 4)], ⟨300, 101325⟩⟩

/-! ## The claims -/

/-- C1: for every successful two-phase flash call — any specification pair —
the returned snapshot satisfies the guarantee: each of the two phase
compositions sums to 1, the overall mole balance z = V·y + (1−V)·x holds
component-wise (exactly, in this rational model, hence within any tolerance),
and the resulting temperature and pressure are both strictly positive.  The
composition-driven routes leave the stored pressure at its prior value, so
pressure positivity there rests on the ThermalCondition invariant of the
incoming state (spec §3: temperature > 0, pressure > 0), taken as the
hypothesis `0 < tc.P`. -/
theorem vle_success_guarantee (pp : Provider) (m : Comp2) (tc : ThermalCondition)
    (spec : Spec2) (st' : VLEState)
    (h : VLE.callCore pp m tc spec = .ok st') (hP0 : 0 < tc.P)
    (hV0 : 0 < st'.result.V) (hV1 : st'.result.V < 1) :
    flashGuarantee m st' := by
  rcases callCore_elim h with ⟨T, P, hf⟩ | ⟨x, P, hf⟩ | ⟨y, P, hf⟩
  · exact finishTP_guarantee hf hV0 hV1
  · exact set_Px_guarantee hf hP0 hV0 hV1
  · exact set_Py_guarantee hf hP0 hV0 hV1

/-- Witness for C1: the concrete (T,P) flash of the equimolar feed. -/
theorem vle_success_guarantee_witness :
    VLE.callCore ppW ⟨1, 1⟩ ⟨298, 1⟩ (.TP (7/12) 1) = .ok stW ∧ flashGuarantee ⟨1, 1⟩ stW := by
  have h : VLE.callCore ppW ⟨1, 1⟩ ⟨298, 1⟩ (.TP (7/12) 1) = .ok stW := by
    norm_num [VLE.callCore, finishTP, flash_TP, normC, RRV, rrX, rrY, applyOutcome,
      Comp2.total, Comp2.smul, Comp2.sub, Except.map, ppW, stW]
  exact ⟨h, vle_success_guarantee ppW ⟨1, 1⟩ ⟨298, 1⟩ _ stW h (by norm_num)
    (by norm_num [stW]) (by norm_num [stW])⟩

/-- C9: every successful in-place equilibrium call — VLE with any
specification, and LLE — conserves the total molar amount of each component
held in the solver's material indexer. -/
theorem equilibrium_conserves_totals (pp : Provider) (m : Comp2) (tc : ThermalCondition)
    (spec : Spec2) (st' : VLEState) (γ : List ℚ → ℚ → List ℚ) (fuel : Nat)
    (lst : LLEState) (T : ℚ)
    (h : VLE.callCore pp m tc spec = .ok st') :
    st'.totals = m ∧ lleTotals (LLE.call γ fuel lst T).flows = lleTotals lst.flows :=
  ⟨callCore_totals h, by simp [LLE.call, lleIter_totals]⟩

/-- Witness for C9 at the concrete flash and LLE states. -/
theorem equilibrium_conserves_totals_witness :
    stW.totals = ⟨1, 1⟩ ∧ lleTotals (LLE.call actW 3 lstW 360).flows = lleTotals lstW.flows := by
  have h : VLE.callCore ppW ⟨1, 1⟩ ⟨298, 1⟩ (.TP (7/12) 1) = .ok stW := by
    norm_num [VLE.callCore, finishTP, flash_TP, normC, RRV, rrX, rrY, applyOutcome,
      Comp2.total, Comp2.smul, Comp2.sub, Except.map, ppW, stW]
  exact equilibrium_conserves_totals ppW ⟨1, 1⟩ ⟨298, 1⟩ _ stW actW 3 lstW 360 h

/-- C7: calling the flash solver twice in a row with identical inputs yields
identical output, and a Flash unit's simulate() is idempotent when invoked
repeatedly with unchanged inlet streams. -/
theorem flash_call_idempotent (pp : Provider) (st : VLEState) (spec : Spec2)
    (st' : VLEState) (u u' : FlashUnit) :
    (VLE.call pp st spec = .ok st' → VLE.call pp st' spec = .ok st') ∧
    (Flash.simulate u = .ok u' → Flash.simulate u' = .ok u') := by
  constructor
  · intro h
    have ht : st'.totals = st.totals := callCore_totals h
    unfold VLE.call at h ⊢
    cases spec with
    | TP T P => simp only [VLE.callCore] at h ⊢; rw [ht]; exact h
    | VP V P => simp only [VLE.callCore] at h ⊢; rw [ht]; exact h
    | VT V T => simp only [VLE.callCore] at h ⊢; rw [ht]; exact h
    | HP H P => simp only [VLE.callCore] at h ⊢; rw [ht]; exact h
    | SP S P => simp only [VLE.callCore] at h ⊢; rw [ht]; exact h
    | xP x P =>
      simp only [VLE.callCore] at h ⊢
      obtain ⟨-, s, -, hst⟩ := set_Px_elim h
      have hP' : st'.thermal.P = st.thermal.P := by rw [hst]
      rw [ht, hP']
      exact h
    | yP y P =>
      simp only [VLE.callCore] at h ⊢
      obtain ⟨-, s, -, hst⟩ := set_Py_elim h
      have hP' : st'.thermal.P = st.thermal.P := by rw [hst]
      rw [ht, hP']
      exact h
  · intro h
    unfold Flash.simulate at h
    cases hc : VLE.callCore u.pp u.ins.mol ⟨u.ins.T, u.ins.P⟩ (.VP u.V u.P) with
    | error e => rw [hc] at h; simp at h
    | ok stt =>
      rw [hc] at h
      simp only [Except.ok.injEq] at h
      subst h
      simp only [Flash.simulate, hc]

/-- Witness for C7: the concrete (T,P) flash and the concrete Flash unit. -/
theorem flash_call_idempotent_witness :
    VLE.call ppW stW (.TP (7/12) 1) = .ok stW ∧ Flash.simulate uWo = .ok uWo := by
  have h : VLE.call ppW stW (.TP (7/12) 1) = .ok stW := by
    norm_num [VLE.call, VLEState.totals, Comp2.add, VLE.callCore, finishTP, flash_TP,
      normC, RRV, rrX, rrY, applyOutcome, Comp2.total, Comp2.smul, Comp2.sub,
      Except.map, ppW, stW]
  have hu : Flash.simulate uW = .ok uWo := by
    norm_num [Flash.simulate, VLE.callCore, bisectSolve, bubbleT, dewT, finishTP,
      flash_TP, normC, RRV, rrX, rrY, applyOutcome, Comp2.total, Comp2.smul, Comp2.sub,
      Except.map, abs, uW, uWo, inW, emptyS, ppW]
  exact ⟨(flash_call_idempotent ppW stW (.TP (7/12) 1) stW uW uWo).1 h,
    (flash_call_idempotent ppW stW (.TP (7/12) 1) stW uW uWo).2 hu⟩

/-- C10: after a successful Flash simulate() with a (V,P) specification, both
outlets carry one common temperature and the specified pressure, the first
outlet is the vapor ('g') phase and the second the liquid ('l') phase, the
outlet flows sum component-wise to the inlet flow, and the inlet stream is
left unchanged. -/
theorem flash_simulate_spec (u u' : FlashUnit) (h : Flash.simulate u = .ok u') :
    u'.outVap.phase = 'g' ∧ u'.outLiq.phase = 'l' ∧
    u'.outVap.T = u'.outLiq.T ∧ u'.outVap.P = u.P ∧ u'.outLiq.P = u.P ∧
    u'.outVap.mol.add u'.outLiq.mol = u.ins.mol ∧ u'.ins = u.ins := by
  unfold Flash.simulate at h
  cases hc : VLE.callCore u.pp u.ins.mol ⟨u.ins.T, u.ins.P⟩ (.VP u.V u.P) with
  | error e => rw [hc] at h; simp at h
  | ok stt =>
    rw [hc] at h
    simp only [Except.ok.injEq] at h
    subst h
    have hP := callCore_VP_pressure hc
    have ht := callCore_totals hc
    exact ⟨rfl, rfl, rfl, hP, hP, ht, rfl⟩

/-- Witness for C10: the concrete Flash unit. -/
theorem flash_simulate_spec_witness :
    uWo.outVap.phase = 'g' ∧ uWo.outLiq.phase = 'l' ∧
    uWo.outVap.T = uWo.outLiq.T ∧ uWo.outVap.P = uW.P ∧ uWo.outLiq.P = uW.P ∧
    uWo.outVap.mol.add uWo.outLiq.mol = uW.ins.mol ∧ uWo.ins = uW.ins := by
  have hu : Flash.simulate uW = .ok uWo := by
    norm_num [Flash.simulate, VLE.callCore, bisectSolve, bubbleT, dewT, finishTP,
      flash_TP, normC, RRV, rrX, rrY, applyOutcome, Comp2.total, Comp2.smul, Comp2.sub,
      Except.map, abs, uW, uWo, inW, emptyS, ppW]
  exact flash_simulate_spec uW uWo hu

/-- C2: for every composition-driven flash call on a valid binary feed, if the
raw lever-rule split (z₀−x₀)/(y₀−x₀) falls outside [−ε, 1+ε] the call fails
with the infeasible-region error (never a silently wrong split); a split
within the ε margin below 0 or above 1 is clamped to that boundary and the
call succeeds. -/
theorem comp_spec_infeasible_or_clamped (pp : Provider) (m x y : Comp2)
    (tc : ThermalCondition) (P : ℚ)
    (hgx : compSpecValid pp m x P) (hgy : compSpecValid pp m y P) :
    (leverSplitPx pp m x P < -leverEps ∨ 1 + leverEps < leverSplitPx pp m x P →
      VLE.callCore pp m tc (.xP x P) = .error .infeasibleRegion) ∧
    (-leverEps < leverSplitPx pp m x P ∧ leverSplitPx pp m x P < 0 →
      ∃ st', VLE.callCore pp m tc (.xP x P) = .ok st' ∧ st'.result.V = 0) ∧
    (1 < leverSplitPx pp m x P ∧ leverSplitPx pp m x P < 1 + leverEps →
      ∃ st', VLE.callCore pp m tc (.xP x P) = .ok st' ∧ st'.result.V = 1) ∧
    (leverSplitPy pp m y P < -leverEps ∨ 1 + leverEps < leverSplitPy pp m y P →
      VLE.callCore pp m tc (.yP y P) = .error .infeasibleRegion) ∧
    (-leverEps < leverSplitPy pp m y P ∧ leverSplitPy pp m y P < 0 →
      ∃ st', VLE.callCore pp m tc (.yP y P) = .ok st' ∧ st'.result.V = 0) ∧
    (1 < leverSplitPy pp m y P ∧ leverSplitPy pp m y P < 1 + leverEps →
      ∃ st', VLE.callCore pp m tc (.yP y P) = .ok st' ∧ st'.result.V = 1) := by
  refine ⟨fun hc => ?_, fun hc => ?_, fun hc => ?_, fun hc => ?_, fun hc => ?_, fun hc => ?_⟩
  · show set_Px pp m tc.P x P = .error .infeasibleRegion
    unfold set_Px
    rw [if_pos hgx, (lever_rule_cases _ _ _).1 hc]
  · show ∃ st', set_Px pp m tc.P x P = .ok st' ∧ st'.result.V = 0
    unfold set_Px
    rw [if_pos hgx, (lever_rule_cases _ _ _).2.1 hc]
    exact ⟨_, rfl, rfl⟩
  · show ∃ st', set_Px pp m tc.P x P = .ok st' ∧ st'.result.V = 1
    unfold set_Px
    rw [if_pos hgx, (lever_rule_cases _ _ _).2.2 hc]
    exact ⟨_, rfl, rfl⟩
  · show set_Py pp m tc.P y P = .error .infeasibleRegion
    unfold set_Py
    rw [if_pos hgy, (lever_rule_cases _ _ _).1 hc]
  · show ∃ st', set_Py pp m tc.P y P = .ok st' ∧ st'.result.V = 0
    unfold set_Py
    rw [if_pos hgy, (lever_rule_cases _ _ _).2.1 hc]
    exact ⟨_, rfl, rfl⟩
  · show ∃ st', set_Py pp m tc.P y P = .ok st' ∧ st'.result.V = 1
    unfold set_Py
    rw [if_pos hgy, (lever_rule_cases _ _ _).2.2 hc]
    exact ⟨_, rfl, rfl⟩

/-- Witness for C2: an infeasible liquid-composition spec errors and a
marginally negative split clamps to 0. -/
theorem comp_spec_infeasible_or_clamped_witness :
    VLE.callCore ppW ⟨1, 1⟩ ⟨298, 1⟩ (.xP ⟨4/5, 1/5⟩ 1) = .error .infeasibleRegion ∧
    (∃ st', VLE.callCore ppW ⟨1, 1⟩ ⟨298, 1⟩
      (.xP ⟨499999/1000000, 500001/1000000⟩ 1) = .ok st' ∧ st'.result.V = 0) := by
  constructor
  · exact (comp_spec_infeasible_or_clamped ppW ⟨1, 1⟩ ⟨4/5, 1/5⟩ ⟨1/3, 2/3⟩ ⟨298, 1⟩ 1
      (by norm_num [compSpecValid, ppW]) (by norm_num [compSpecValid, ppW])).1
      (Or.inr (by norm_num [leverSplitPx, bubble_Ty, leverEps, ppW]))
  · exact (comp_spec_infeasible_or_clamped ppW ⟨1, 1⟩ ⟨499999/1000000, 500001/1000000⟩
      ⟨1/3, 2/3⟩ ⟨298, 1⟩ 1
      (by norm_num [compSpecValid, ppW]) (by norm_num [compSpecValid, ppW])).2.1
      (by norm_num [leverSplitPx, bubble_Ty, leverEps, ppW])

/-- Counterexample for C5 as stated: a successful (x,P) call whose thermal
condition keeps the prior stored pressure 5/4 instead of the supplied P = 1 —
the behaviour notebook cell 14 demonstrates (`P` stays at the previous call's
127822 after `vle(x=..., P=101325)`). -/
theorem comp_spec_lever_route_cex :
    VLE.callCore ppW ⟨1, 1⟩ tcW (.xP ⟨3/5, 2/5⟩ 1) = .ok stPxWp ∧
    ¬stPxWp.thermal.P = 1 := by
  constructor
  · norm_num [VLE.callCore, set_Px, compSpecValid, lever_rule, leverEps, bubble_Ty,
      Comp2.smul, Comp2.sub, ppW, tcW, stPxWp]
  · norm_num [stPxWp]

/-- C5 (amended): the (x,P) and (y,P) routes hold the supplied pressure fixed
as the parameter of the bubble/dew solve — the solved temperature and the
other phase's composition are functions of that P — and back out the split by
the lever rule split = (z₀−x₀)/(y₀−x₀); the thermal condition receives only
the solved temperature, its stored pressure remaining at the prior value
`tc.P`, not the supplied P (vle.py set_Px assigns only T; notebook cell 14). -/
theorem comp_spec_lever_route (pp : Provider) (m x y : Comp2)
    (tc : ThermalCondition) (P : ℚ) (st1 st2 : VLEState) :
    (VLE.callCore pp m tc (.xP x P) = .ok st1 →
      st1.thermal.T = (bubble_Ty pp.a0 pp.a1 x P).1 ∧ st1.thermal.P = tc.P ∧
      st1.result.x = x ∧ st1.result.y = (bubble_Ty pp.a0 pp.a1 x P).2 ∧
      st1.imol.g.total = (m.c0 + m.c1) * min 1 (max 0 (leverSplitPx pp m x P))) ∧
    (VLE.callCore pp m tc (.yP y P) = .ok st2 →
      st2.thermal.T = (dew_Tx pp.a0 pp.a1 y P).1 ∧ st2.thermal.P = tc.P ∧
      st2.result.y = y ∧ st2.result.x = (dew_Tx pp.a0 pp.a1 y P).2 ∧
      st2.imol.g.total = (m.c0 + m.c1) * min 1 (max 0 (leverSplitPy pp m y P))) := by
  constructor
  · intro h
    obtain ⟨⟨ha0, ha1, hP, hm0, hm1, hx0, hx1, hxs⟩, s, hl, hst⟩ := set_Px_elim h
    subst hst
    obtain ⟨-, -, hs⟩ := lever_rule_ok hl
    refine ⟨rfl, rfl, rfl, rfl, ?_⟩
    have hA : 0 < x.c0 * pp.a0 + x.c1 * pp.a1 := convex_pos hx0 hx1 hxs ha0 ha1
    have hyt : (bubble_Ty pp.a0 pp.a1 x P).2.c0 + (bubble_Ty pp.a0 pp.a1 x P).2.c1 = 1 := by
      simp only [bubble_Ty]
      field_simp
    rw [hs] at *
    simp only [Comp2.smul, Comp2.total, leverSplitPx]
    linear_combination ((m.c0 + m.c1) *
      min 1 (max 0 ((m.c0 / (m.c0 + m.c1) - x.c0) /
        ((bubble_Ty pp.a0 pp.a1 x P).2.c0 - x.c0)))) * hyt
  · intro h
    obtain ⟨⟨ha0, ha1, hP, hm0, hm1, hy0, hy1, hys⟩, s, hl, hst⟩ := set_Py_elim h
    subst hst
    obtain ⟨-, -, hs⟩ := lever_rule_ok hl
    refine ⟨rfl, rfl, rfl, rfl, ?_⟩
    rw [hs] at *
    simp only [Comp2.smul, Comp2.total, leverSplitPy]
    linear_combination ((m.c0 + m.c1) *
      min 1 (max 0 ((m.c0 / (m.c0 + m.c1) - (dew_Tx pp.a0 pp.a1 y P).2.c0) /
        (y.c0 - (dew_Tx pp.a0 pp.a1 y P).2.c0)))) * hys

/-- Witness for C5 (amended): the concrete (x,P) and (y,P) calls from `tcW`. -/
theorem comp_spec_lever_route_witness :
    (stPxWp.thermal.T = (bubble_Ty ppW.a0 ppW.a1 ⟨3/5, 2/5⟩ 1).1 ∧
      stPxWp.thermal.P = tcW.P ∧
      stPxWp.result.x = ⟨3/5, 2/5⟩ ∧
      stPxWp.result.y = (bubble_Ty ppW.a0 ppW.a1 ⟨3/5, 2/5⟩ 1).2 ∧
      stPxWp.imol.g.total = ((1:ℚ) + 1) * min 1 (max 0 (leverSplitPx ppW ⟨1, 1⟩ ⟨3/5, 2/5⟩ 1))) ∧
    (stPxWp.thermal.T = (dew_Tx ppW.a0 ppW.a1 ⟨1/3, 2/3⟩ 1).1 ∧
      stPxWp.thermal.P = tcW.P ∧
      stPxWp.result.y = ⟨1/3, 2/3⟩ ∧
      stPxWp.result.x = (dew_Tx ppW.a0 ppW.a1 ⟨1/3, 2/3⟩ 1).2 ∧
      stPxWp.imol.g.total = ((1:ℚ) + 1) * min 1 (max 0 (leverSplitPy ppW ⟨1, 1⟩ ⟨1/3, 2/3⟩ 1))) := by
  have hx : VLE.callCore ppW ⟨1, 1⟩ tcW (.xP ⟨3/5, 2/5⟩ 1) = .ok stPxWp := by
    norm_num [VLE.callCore, set_Px, compSpecValid, lever_rule, leverEps, bubble_Ty,
      Comp2.smul, Comp2.sub, ppW, tcW, stPxWp]
  have hy : VLE.callCore ppW ⟨1, 1⟩ tcW (.yP ⟨1/3, 2/3⟩ 1) = .ok stPxWp := by
    norm_num [VLE.callCore, set_Py, compSpecValid, lever_rule, leverEps, dew_Tx,
      Comp2.smul, Comp2.sub, ppW, tcW, stPxWp]
  exact ⟨(comp_spec_lever_route ppW ⟨1, 1⟩ ⟨3/5, 2/5⟩ ⟨1/3, 2/3⟩ tcW 1 stPxWp stPxWp).1 hx,
    (comp_spec_lever_route ppW ⟨1, 1⟩ ⟨3/5, 2/5⟩ ⟨1/3, 2/3⟩ tcW 1 stPxWp stPxWp).2 hy⟩

/-- C4: for every valid composition `z`, the bubble-point solver at fixed T
(resp. fixed P) returns (P, y) (resp. (T, y)) and the dew-point solver returns
(P, x) (resp. (T, x)), with the incipient composition normalized to sum to 1
and the result carrying the solver's component identifier list and the input z
unchanged. -/
theorem bubble_dew_contract (bp : BubblePoint) (dp : DewPoint) (z : Comp2) (T P : ℚ)
    (hb0 : 0 < bp.a0) (hb1 : 0 < bp.a1) (hd0 : 0 < dp.a0) (hd1 : 0 < dp.a1)
    (hz0 : 0 ≤ z.c0) (hz1 : 0 ≤ z.c1) (hzs : z.c0 + z.c1 = 1) :
    ((bp.atT z T).y.total = 1 ∧ (bp.atT z T).IDs = bp.IDs ∧ (bp.atT z T).z = z ∧
      (bp.atT z T).T = T) ∧
    ((bp.atP z P).y.total = 1 ∧ (bp.atP z P).IDs = bp.IDs ∧ (bp.atP z P).z = z ∧
      (bp.atP z P).P = P) ∧
    ((dp.atT z T).x.total = 1 ∧ (dp.atT z T).IDs = dp.IDs ∧ (dp.atT z T).z = z ∧
      (dp.atT z T).T = T) ∧
    ((dp.atP z P).x.total = 1 ∧ (dp.atP z P).IDs = dp.IDs ∧ (dp.atP z P).z = z ∧
      (dp.atP z P).P = P) := by
  have hA : 0 < z.c0 * bp.a0 + z.c1 * bp.a1 := convex_pos hz0 hz1 hzs hb0 hb1
  have hB : 0 < z.c0 * dp.a1 + z.c1 * dp.a0 := convex_pos hz0 hz1 hzs hd1 hd0
  refine ⟨⟨?_, rfl, rfl, rfl⟩, ⟨?_, rfl, rfl, rfl⟩, ⟨?_, rfl, rfl, rfl⟩, ⟨?_, rfl, rfl, rfl⟩⟩
  · simp only [BubblePoint.atT, bubble_Py, Comp2.total]
    field_simp
  · simp only [BubblePoint.atP, bubble_Ty, Comp2.total]
    field_simp
  · simp only [DewPoint.atT, dew_Px, Comp2.total]
    field_simp
    ring
  · simp only [DewPoint.atP, dew_Tx, Comp2.total]
    field_simp
    ring

/-- Witness for C4 at the concrete chemicals and state. -/
theorem bubble_dew_contract_witness :
    (((BubblePoint.mk ["Water", "Ethanol"] 1 3).atT ⟨1/2, 1/2⟩ 355).y.total = 1 ∧
      ((BubblePoint.mk ["Water", "Ethanol"] 1 3).atT ⟨1/2, 1/2⟩ 355).IDs =
        (BubblePoint.mk ["Water", "Ethanol"] 1 3).IDs ∧
      ((BubblePoint.mk ["Water", "Ethanol"] 1 3).atT ⟨1/2, 1/2⟩ 355).z = ⟨1/2, 1/2⟩ ∧
      ((BubblePoint.mk ["Water", "Ethanol"] 1 3).atT ⟨1/2, 1/2⟩ 355).T = 355) ∧
    (((BubblePoint.mk ["Water", "Ethanol"] 1 3).atP ⟨1/2, 1/2⟩ 2).y.total = 1 ∧
      ((BubblePoint.mk ["Water", "Ethanol"] 1 3).atP ⟨1/2, 1/2⟩ 2).IDs =
        (BubblePoint.mk ["Water", "Ethanol"] 1 3).IDs ∧
      ((BubblePoint.mk ["Water", "Ethanol"] 1 3).atP ⟨1/2, 1/2⟩ 2).z = ⟨1/2, 1/2⟩ ∧
      ((BubblePoint.mk ["Water", "Ethanol"] 1 3).atP ⟨1/2, 1/2⟩ 2).P = 2) ∧
    (((DewPoint.mk ["Water", "Ethanol"] 1 3).atT ⟨1/2, 1/2⟩ 355).x.total = 1 ∧
      ((DewPoint.mk ["Water", "Ethanol"] 1 3).atT ⟨1/2, 1/2⟩ 355).IDs =
        (DewPoint.mk ["Water", "Ethanol"] 1 3).IDs ∧
      ((DewPoint.mk ["Water", "Ethanol"] 1 3).atT ⟨1/2, 1/2⟩ 355).z = ⟨1/2, 1/2⟩ ∧
      ((DewPoint.mk ["Water", "Ethanol"] 1 3).atT ⟨1/2, 1/2⟩ 355).T = 355) ∧
    (((DewPoint.mk ["Water", "Ethanol"] 1 3).atP ⟨1/2, 1/2⟩ 2).x.total = 1 ∧
      ((DewPoint.mk ["Water", "Ethanol"] 1 3).atP ⟨1/2, 1/2⟩ 2).IDs =
        (DewPoint.mk ["Water", "Ethanol"] 1 3).IDs ∧
      ((DewPoint.mk ["Water", "Ethanol"] 1 3).atP ⟨1/2, 1/2⟩ 2).z = ⟨1/2, 1/2⟩ ∧
      ((DewPoint.mk ["Water", "Ethanol"] 1 3).atP ⟨1/2, 1/2⟩ 2).P = 2) :=
  bubble_dew_contract (BubblePoint.mk ["Water", "Ethanol"] 1 3)
    (DewPoint.mk ["Water", "Ethanol"] 1 3) ⟨1/2, 1/2⟩ 355 2
    (by norm_num) (by norm_num) (by norm_num) (by norm_num)
    (by norm_num) (by norm_num) (by norm_num)

/-- C6: for a valid feed with simple (ideal, non-retrograde) behavior, running
the dew-point solver at the same temperature on the bubble point's computed
vapor composition returns a pressure at least the bubble-point pressure (here
it is exactly equal, so the envelope ordering holds). -/
theorem bubble_dew_envelope_order (bp : BubblePoint) (dp : DewPoint) (z : Comp2) (T : ℚ)
    (hsame0 : dp.a0 = bp.a0) (hsame1 : dp.a1 = bp.a1)
    (ha0 : 0 < bp.a0) (ha1 : 0 < bp.a1)
    (hz0 : 0 ≤ z.c0) (hz1 : 0 ≤ z.c1) (hzs : z.c0 + z.c1 = 1) (hT : 0 < T) :
    (bp.atT z T).P ≤ (dp.atT (bp.atT z T).y T).P := by
  obtain ⟨z0, z1⟩ := z
  simp only at hz0 hz1 hzs
  have hz1' : z1 = 1 - z0 := by linarith
  subst hz1'
  have hA : 0 < z0 * bp.a0 + (1 - z0) * bp.a1 := convex_pos hz0 hz1 hzs ha0 ha1
  simp only [BubblePoint.atT, DewPoint.atT, bubble_Py, dew_Px, hsame0, hsame1]
  have hBsum : (z0 * bp.a0 / (z0 * bp.a0 + (1 - z0) * bp.a1)) / bp.a0 +
      ((1 - z0) * bp.a1 / (z0 * bp.a0 + (1 - z0) * bp.a1)) / bp.a1 =
      1 / (z0 * bp.a0 + (1 - z0) * bp.a1) := by
    field_simp
    ring
  rw [hBsum, div_div_eq_mul_div, mul_comm, mul_div_assoc, div_one]

/-- Witness for C6 at the concrete chemicals and composition. -/
theorem bubble_dew_envelope_order_witness :
    ((BubblePoint.mk ["Water", "Ethanol"] 1 3).atT ⟨1/2, 1/2⟩ 355).P ≤
      ((DewPoint.mk ["Water", "Ethanol"] 1 3).atT
        ((BubblePoint.mk ["Water", "Ethanol"] 1 3).atT ⟨1/2, 1/2⟩ 355).y 355).P :=
  bubble_dew_envelope_order (BubblePoint.mk ["Water", "Ethanol"] 1 3)
    (DewPoint.mk ["Water", "Ethanol"] 1 3) ⟨1/2, 1/2⟩ 355
    rfl rfl (by norm_num) (by norm_num) (by norm_num) (by norm_num) (by norm_num)
    (by norm_num)

/-- C3: every recycle-convergence run terminates in exactly one of two ways:
converged at some pass within the budget, reporting the loop count and the
single largest per-component relative flow error and absolute temperature
error — with every per-component error below tolerance; or not-converged after
the maximum pass count, surfacing the final pass's out-of-tolerance
diagnostics rather than silently returning a stale state. -/
theorem recycle_termination (f : List Tear → List Tear) (tolF tolT : ℚ)
    (maxIter : Nat) (s : List Tear) :
    (∃ k, k ≤ maxIter ∧
      System.converge f tolF tolT maxIter s =
        .converged (k + 1) (maxFlowErr (f^[k] s) (f^[k + 1] s))
          (maxTErr (f^[k] s) (f^[k + 1] s)) ∧
      maxFlowErr (f^[k] s) (f^[k + 1] s) ≤ tolF ∧
      maxTErr (f^[k] s) (f^[k + 1] s) ≤ tolT ∧
      (∀ p ∈ (f^[k] s).zip (f^[k + 1] s),
        (∀ e ∈ flowErrs p.1 p.2, e ≤ tolF) ∧ |p.2.T - p.1.T| ≤ tolT)) ∨
    (System.converge f tolF tolT maxIter s =
        .notConverged (maxFlowErr (f^[maxIter] s) (f^[maxIter + 1] s))
          (maxTErr (f^[maxIter] s) (f^[maxIter + 1] s)) ∧
      ¬(maxFlowErr (f^[maxIter] s) (f^[maxIter + 1] s) ≤ tolF ∧
        maxTErr (f^[maxIter] s) (f^[maxIter + 1] s) ≤ tolT)) := by
  rcases recycleAux_spec f tolF tolT maxIter 0 s with ⟨k, hk, heq, h1, h2⟩ | ⟨heq, hne⟩
  · refine Or.inl ⟨k, hk, ?_, h1, h2, ?_⟩
    · simpa [System.converge] using heq
    · intro p hp
      exact ⟨fun e he => le_trans (maxFlowErr_dominates hp he) h1,
        le_trans (maxTErr_dominates hp) h2⟩
  · exact Or.inr ⟨by simpa [System.converge] using heq, hne⟩

/-- C8: the LLE solver takes only composition and temperature — pressure is
not a free variable and has no effect: calls at any two pressures return the
same two liquid-phase compositions and the same relative split, and the
stored pressure passes through unchanged. -/
theorem lle_pressure_independent (γ : List ℚ → ℚ → List ℚ) (fuel : Nat)
    (st : LLEState) (T P1 P2 : ℚ) :
    (LLE.call γ fuel ⟨st.flows, ⟨st.thermal.T, P1⟩⟩ T).flows =
      (LLE.call γ fuel ⟨st.flows, ⟨st.thermal.T, P2⟩⟩ T).flows ∧
    lleSplit (LLE.call γ fuel ⟨st.flows, ⟨st.thermal.T, P1⟩⟩ T).flows =
      lleSplit (LLE.call γ fuel ⟨st.flows, ⟨st.thermal.T, P2⟩⟩ T).flows ∧
    (LLE.call γ fuel st T).thermal.T = T ∧
    (LLE.call γ fuel st T).thermal.P = st.thermal.P :=
  ⟨rfl, rfl, rfl, rfl⟩

end BioSteam
